import Mathlib

/-!
Shallow embedding of `logflux/main.py` (a log-to-metrics translation
daemon) and proofs about its message-normalization, rule-matching,
value-resolution and point-building pipeline.

Modelling conventions:
* Python exceptions become the `PyExc` error type carried in `Except`.
* Python dicts become association lists built with insert-or-overwrite
  (`dinsert`), preserving insertion order like Python dicts.
* Byte payloads are modelled as `String` (the program decodes UTF-8 and
  then works on text; all behaviour of interest is on the decoded text).
* `json.loads` is an external standard-library collaborator; it is a
  parameter `jl : String → Option Loaded` of the functions that use it
  (`none` models the `ValueError` family raised on malformed input).
* Python string primitives are modelled by structurally recursive
  helpers (`pyStrip`, `pySplitlines`, `pySplitOnce`, `joinWith`,
  `pyContains`) so that concrete runs reduce inside the kernel.
* Log output is modelled as a `List LogMsg` trace of the diagnostics the
  program emits; the exact formatted text is advisory only.
-/

namespace LogFlux

/-- Python exceptions that the pipeline can raise. `raise NotImplemented(...)`
in the source actually raises a `TypeError` (calling the non-callable
`NotImplemented` singleton), which we model faithfully. -/
inductive PyExc where
  | keyError (key : String)
  | valueError (msg : String)
  | typeError (msg : String)
  | assertionError (msg : String)
  | sinkError (msg : String)
deriving DecidableEq, Repr

/-- Decidable equality for `Except`, so that concrete runs of the
fallible pipeline functions can be checked by `decide`. -/
instance {ε α : Type} [DecidableEq ε] [DecidableEq α] : DecidableEq (Except ε α)
  | .error a, .error b =>
    if h : a = b then .isTrue (h ▸ rfl) else .isFalse (fun hc => by cases hc; exact h rfl)
  | .error _, .ok _ => .isFalse (fun hc => by cases hc)
  | .ok _, .error _ => .isFalse (fun hc => by cases hc)
  | .ok a, .ok b =>
    if h : a = b then .isTrue (h ▸ rfl) else .isFalse (fun hc => by cases hc; exact h rfl)

/-- A resolved field/tag value: a string from the message or a capture
group, or the result of an `int` / `float` coercion from `TYPE_MAP`.
Python floats are modelled by the exact rational value of the decimal
literal (no claim depends on binary-float rounding). -/
inductive Value where
  | str (s : String)
  | int (n : Int)
  | float (q : ℚ)
deriving DecidableEq, Repr

/-- Python truthiness for the values that can appear as resolved values:
empty string, zero int and zero float are falsy. -/
def Value.truthy : Value → Bool
  | .str s => s ≠ ""
  | .int n => n ≠ 0
  | .float q => q ≠ 0

/-- Message dictionaries: string keys to string values. -/
abbrev Dict := List (String × String)

/-- Field/tag result dictionaries: string keys to resolved values. -/
abbrev VDict := List (String × Value)

/-- Python dict assignment `d[k] = v`: overwrite in place if the key is
present, else append (preserving insertion order). -/
def dinsert {α : Type} (d : List (String × α)) (k : String) (v : α) :
    List (String × α) :=
  if (d.lookup k).isSome then
    d.map (fun p => if p.1 = k then (k, v) else p)
  else
    d ++ [(k, v)]

/-- Python `str.strip()`: remove leading and trailing whitespace. -/
def pyStrip (s : String) : String :=
  String.mk (((s.toList.dropWhile Char.isWhitespace).reverse.dropWhile
    Char.isWhitespace).reverse)

/-- Python `c in s` for a character. -/
def pyContains (s : String) (c : Char) : Bool :=
  s.toList.contains c

/-- Split a character list at the first occurrence of the (non-empty)
separator `sep`: the part before it and the part after it, or `none`
when `sep` does not occur. -/
def breakOnSub (sep : List Char) : List Char → Option (List Char × List Char)
  | [] => none
  | c :: rest =>
    if sep.isPrefixOf (c :: rest) then some ([], (c :: rest).drop sep.length)
    else
      match breakOnSub sep rest with
      | some (pre, post) => some (c :: pre, post)
      | none => none

/-- Python `s.split(sep, 1)` when the separator occurs: the text before
the first occurrence and everything after it. `none` models the
one-element result (separator absent), which makes a two-name unpacking
raise `ValueError`. -/
def pySplitOnce (s sep : String) : Option (String × String) :=
  match breakOnSub sep.toList s.toList with
  | some (pre, post) => some (String.mk pre, String.mk post)
  | none => none

/-- Split a character list on `'\n'`, keeping empty segments (the
backbone of `str.splitlines()`). -/
def splitLinesList : List Char → List (List Char)
  | [] => [[]]
  | c :: rest =>
    if c = '\n' then [] :: splitLinesList rest
    else
      match splitLinesList rest with
      | [] => [[c]]
      | l :: ls => (c :: l) :: ls

/-- Python `str.splitlines()` restricted to `\n` separators: no trailing
empty line is produced when the text ends with a newline, and the empty
string yields no lines. -/
def pySplitlines (s : String) : List String :=
  if s = "" then []
  else
    let l := (splitLinesList s.toList).map String.mk
    if s.toList.getLast? = some '\n' then l.dropLast else l

/-- Python `sep.join(parts)`. -/
def joinWith (sep : String) : List String → String
  | [] => ""
  | [x] => x
  | x :: rest => x ++ sep ++ joinWith sep rest

/-- Python `int(s)` on a string: strip whitespace, optional sign, one or
more decimal digits; anything else raises `ValueError`. -/
def digitsVal : List Char → Option Nat
  | [] => none
  | cs =>
    if cs.all Char.isDigit then
      some (cs.foldl (fun acc c => acc * 10 + (c.toNat - '0'.toNat)) 0)
    else none

def pyInt (s : String) : Except PyExc Int :=
  let t := (pyStrip s).toList
  let signed : Option Int :=
    match t with
    | '+' :: ds => (digitsVal ds).map (fun n => (n : Int))
    | '-' :: ds => (digitsVal ds).map (fun n => -(n : Int))
    | ds => (digitsVal ds).map (fun n => (n : Int))
  match signed with
  | some n => .ok n
  | none => .error (.valueError ("invalid literal for int: " ++ s))

/-- Python `float(s)` on the decimal-literal fragment `[±]digits[.digits]`
(at least one digit on one side of the point), returning the exact
rational value; other shapes raise `ValueError`. -/
def pyFloatCore : List Char → Option ℚ
  | cs =>
    match cs.span Char.isDigit with
    | (intPart, rest) =>
      match rest with
      | [] => if intPart = [] then none else (digitsVal intPart).map (fun n => (n : ℚ))
      | '.' :: frac =>
        if frac.all Char.isDigit ∧ (intPart ≠ [] ∨ frac ≠ []) then
          match intPart, frac with
          | [], [] => none
          | _, _ =>
            let ip : ℚ := ((digitsVal intPart).getD 0 : ℚ)
            let fp : ℚ := ((digitsVal frac).getD 0 : ℚ) / ((10 : ℚ) ^ frac.length)
            some (ip + fp)
        else none
      | _ => none

def pyFloat (s : String) : Except PyExc ℚ :=
  let t := (pyStrip s).toList
  let q : Option ℚ :=
    match t with
    | '+' :: ds => pyFloatCore ds
    | '-' :: ds => (pyFloatCore ds).map Neg.neg
    | ds => pyFloatCore ds
  match q with
  | some v => .ok v
  | none => .error (.valueError ("could not convert string to float: " ++ s))

/-- The `TYPE_MAP = {'int': int, 'float': float}` coercion table. -/
inductive VType where
  | int
  | float
deriving DecidableEq, Repr

/-- Applying a `TYPE_MAP` coercion to a resolved string value (the only
value shape the program ever coerces). -/
def applyVType : VType → String → Except PyExc Value
  | .int, s => (pyInt s).map Value.int
  | .float, s => (pyFloat s).map Value.float

/-- The result of a message loader: `json.loads` can yield a JSON object
(a dict) or `null` (Python `None`); the legacy loader always yields a
dict. These are the shapes the claims exercise. -/
inductive Loaded where
  | dict (m : Dict)
  | null
deriving DecidableEq, Repr

/-- Python truthiness of a loaded message: `None` and `{}` are falsy. -/
def Loaded.truthy : Loaded → Bool
  | .dict m => m ≠ []
  | .null => false

/-!
Mini regex engine modelling the fragment of Python `re` that the
configured rule patterns use: literals, `$`, `\d+` (maximal munch),
`.*` (maximal munch, stops at newline), sequencing and named groups
`(?P<name>...)`.  `reMatch` implements `re.match` semantics: the pattern
is anchored at the start of the string and trailing unmatched text is
permitted (no full-string requirement).  A successful match exposes its
named capture groups (Python `groupdict()`); in this fragment every
named group of a successful match participates.
-/

inductive RE where
  | lit (s : String)
  | eos
  | digits1
  | anyStar
  | seq (a b : RE)
  | group (name : String) (r : RE)
deriving DecidableEq, Repr

/-- The `groupdict()` of a match: named group to captured text. -/
abbrev MatchResult := List (String × String)

/-- Match `r` against `cs` at the current position; return the remaining
input and the named captures, or `none` on failure. -/
def matchCore : RE → List Char → Option (List Char × MatchResult)
  | .lit s, cs =>
    if s.toList.isPrefixOf cs then some (cs.drop s.length, []) else none
  | .eos, cs => if cs = [] then some (cs, []) else none
  | .digits1, cs =>
    let ds := cs.takeWhile Char.isDigit
    if ds = [] then none else some (cs.drop ds.length, [])
  | .anyStar, cs =>
    let t := cs.takeWhile (· ≠ '\n')
    some (cs.drop t.length, [])
  | .seq a b, cs => do
    let (cs₁, g₁) ← matchCore a cs
    let (cs₂, g₂) ← matchCore b cs₁
    some (cs₂, g₁ ++ g₂)
  | .group n r, cs => do
    let (cs', g) ← matchCore r cs
    some (cs', g ++ [(n, String.mk (cs.take (cs.length - cs'.length)))])

/-- Model of `re.match(pattern, s)`: anchored at position 0, trailing text allowed;
returns the groupdict of the match, or `none` for a non-match. -/
def reMatch (r : RE) (s : String) : Option MatchResult :=
  (matchCore r s.toList).map Prod.snd

/-!
The data model of the pipeline: rules, lookup specs, points, and the
diagnostic log trace.
-/

/-- A field/tag lookup spec: a bare string reference, or the dict form
`{'lookup': ref, 'type': t}` with its optional `TYPE_MAP` coercion. -/
inductive Lookup where
  | plain (ref : String)
  | compound (ref : String) (vtype : Option VType)
deriving DecidableEq, Repr

/-- The `rules` entries after `compile_rules`: name, match key, compiled
regex, and the optional `fields` / `tags` lookup maps (`none` models a
rule dict without that key, which is what triggers the implicit
`{'value': 'message'}` default for fields). -/
structure Rule where
  name : String
  matchKey : String
  regex : RE
  fields : Option (List (String × Lookup))
  tags : Option (List (String × Lookup))
deriving DecidableEq, Repr

/-- One InfluxDB point as built by `make_point`: the `tags` key is
omitted entirely (`none`) when the resolved tag map is empty. -/
structure Point where
  measurement : String
  time : String
  fields : VDict
  tags : Option VDict
deriving DecidableEq, Repr

/-- The diagnostics the pipeline emits (`self.log` calls), abstracted
from their formatted text. -/
inductive LogMsg where
  | detectedJson
  | detectedLegacy
  | expectedKeyMissing (key : String)
  | invalidReference (lookup : String) (groups : MatchResult)
  | failedToGeneratePoint (e : PyExc)
  | pointLine (p : Point)
  | caughtExceptionHandlingMessage
deriving DecidableEq, Repr

/-!
The message normalizer (`load_message_json`, `load_message_legacy`,
`load_message`) and the format-detection state machine.
-/

/-- The committed loader; `Option LoaderKind` with `none` is the
undetermined `self.message_loader = None` state. -/
inductive LoaderKind where
  | json
  | legacy
deriving DecidableEq, Repr

/-- Model of `load_message_json`: `json.loads(raw.decode('utf-8').strip())`.
`jl` is the external `json.loads`; `none` is its `ValueError`. -/
def load_message_json (jl : String → Option Loaded) (raw : String) :
    Except PyExc Loaded :=
  match jl (pyStrip raw) with
  | some m => .ok m
  | none => .error (.valueError "invalid JSON")

/-- The header-line loop of `load_message_legacy`: consume `key: value`
lines up to the first empty line; return the headers in order and the
remaining lines.  A header line without `': '` raises `ValueError`
(two-name unpacking of a one-element split). -/
def legacyHeaders : List String → Except PyExc (List (String × String) × List String)
  | [] => .ok ([], [])
  | line :: rest =>
    if line = "" then .ok ([], rest)
    else
      match pySplitOnce line ": " with
      | none => .error (.valueError ("not enough values to unpack: " ++ line))
      | some (k, v) => do
        let (hs, body) ← legacyHeaders rest
        .ok ((k, v) :: hs, body)

/-- Model of `load_message_legacy`: parse header lines into the dict, then store
the remaining lines re-joined with newlines under `'message'`. -/
def load_message_legacy (raw : String) : Except PyExc Loaded := do
  let (hs, body) ← legacyHeaders (pySplitlines raw)
  let r := hs.foldl (fun d kv => dinsert d kv.1 kv.2) []
  .ok (.dict (dinsert r "message" (joinWith "\n" body)))

/-- Run a committed loader on a payload. -/
def runLoader (jl : String → Option Loaded) : LoaderKind → String → Except PyExc Loaded
  | .json, raw => load_message_json jl raw
  | .legacy, raw => load_message_legacy raw

/-- Model of `load_message`: when no loader is committed, try a JSON parse of the
payload; on success commit JSON, on `ValueError` commit legacy; then
parse the payload with the committed loader.  Returns the committed
loader, the parse result, and the detection diagnostics. -/
def load_message (jl : String → Option Loaded) (loader : Option LoaderKind)
    (raw : String) : Option LoaderKind × Except PyExc Loaded × List LogMsg :=
  match loader with
  | some k => (some k, runLoader jl k raw, [])
  | none =>
    match load_message_json jl raw with
    | .ok _ => (some .json, runLoader jl .json raw, [.detectedJson])
    | .error _ => (some .legacy, runLoader jl .legacy raw, [.detectedLegacy])

/-!
The matcher (`check_re`), value resolver (`rule_value_match_lookup`,
`rule_value_lookup`, `get_fields_tags`) and point builder (`make_point`,
`parse_message`).
-/

/-- Model of `check_re`: look up the rule's key in the message; a missing key is
logged and treated as a non-match (the `except KeyError` arm returns
`None`); a present value is stripped and matched from the start. -/
def check_re (msg : Dict) (key : String) (pattern : RE) :
    Option MatchResult × List LogMsg :=
  match msg.lookup key with
  | none => (none, [.expectedKeyMissing key])
  | some v => (reMatch pattern (pyStrip v), [])

/-- Model of `rule_value_match_lookup`: split the dotted lookup at the first `.`;
a prefix different from the rule's match key hits
`raise NotImplemented(...)`, which raises `TypeError` (the
`NotImplemented` singleton is not callable); otherwise fetch the named
capture group, raising `KeyError` when the group does not exist. -/
def rule_value_match_lookup (rule : Rule) (m : MatchResult) (lookup : String) :
    Except PyExc String :=
  match pySplitOnce lookup "." with
  | none => .error (.valueError ("not enough values to unpack: " ++ lookup))
  | some (key, matchkey) =>
    if key ≠ rule.matchKey then
      .error (.typeError "NotImplementedType object is not callable")
    else
      match m.lookup matchkey with
      | some v => .ok v
      | none => .error (.keyError matchkey)

/-- The `try` body of `rule_value_lookup`: dotted references go through
the match lookup, bare references index the message (raising `KeyError`
when absent). -/
def lookupRaw (rule : Rule) (msg : Dict) (m : MatchResult) (ref : String) :
    Except PyExc String :=
  if pyContains ref '.' then rule_value_match_lookup rule m ref
  else
    match msg.lookup ref with
    | some v => .ok v
    | none => .error (.keyError ref)

/-- Model of `rule_value_lookup`: unwrap a dict-form spec (recording its coercion),
resolve the reference; a `KeyError` is caught and logged (resolving to
`None`), any other exception propagates; finally, when a coercion was
recorded and the value is truthy, apply it (`int`/`float` parse failures
propagate — this step is outside the `try`). -/
def rule_value_lookup (rule : Rule) (msg : Dict) (m : MatchResult)
    (lookup : Lookup) : Except PyExc (Option Value × List LogMsg) := do
  let (vt, ref) :=
    match lookup with
    | .plain r => ((none : Option VType), r)
    | .compound r t => (t, r)
  let (raw?, logs) ←
    match lookupRaw rule msg m ref with
    | .ok v => pure ((some v : Option String), ([] : List LogMsg))
    | .error (.keyError _) => pure (none, [.invalidReference ref m])
    | .error e => Except.error e
  match raw?, vt with
  | some s, some t =>
    if (Value.str s).truthy then do
      let v ← applyVType t s
      pure (some v, logs)
    else pure (some (.str s), logs)
  | some s, none => pure (some (.str s), logs)
  | none, _ => pure (none, logs)

/-- The loop body of `get_fields_tags`: resolve each lookup in order and
keep only truthy values (`if v: r[k] = v`). -/
def gftEntries (rule : Rule) (msg : Dict) (m : MatchResult) :
    List (String × Lookup) → VDict → List LogMsg →
    Except PyExc (VDict × List LogMsg)
  | [], r, logs => .ok (r, logs)
  | (k, lk) :: rest, r, logs =>
    match rule_value_lookup rule msg m lk with
    | .error e => .error e
    | .ok (v?, l) =>
      let r' :=
        match v? with
        | some v => if v.truthy then dinsert r k v else r
        | none => r
      gftEntries rule msg m rest r' (logs ++ l)

/-- Model of `get_fields_tags`: iterate `rule.get(lookup_type, default or {})`.
The lookup map and the default are passed explicitly (`fields` or `tags`
of the rule). -/
def get_fields_tags (rule : Rule) (msg : Dict) (m : MatchResult)
    (lookups default : Option (List (String × Lookup))) :
    Except PyExc (VDict × List LogMsg) :=
  gftEntries rule msg m (lookups.getD (default.getD [])) [] []

/-- Model of `make_point`: measurement from the rule name, time from the message's
`@timestamp` (a `KeyError` when absent — raised before any field
resolution), fields with the implicit `{'value': 'message'}` default
(asserted non-empty), tags with no default (the `tags` key is dropped
when empty). -/
def make_point (rule : Rule) (msg : Dict) (m : MatchResult) :
    Except PyExc (Point × List LogMsg) := do
  let measurement := rule.name
  let time ←
    match msg.lookup "@timestamp" with
    | some t => Except.ok t
    | none => Except.error (.keyError "@timestamp")
  let (fields, logs₁) ←
    get_fields_tags rule msg m rule.fields (some [("value", .plain "message")])
  if fields = [] then
    Except.error (.assertionError "Unable to populate field values")
  else do
    let (tags, logs₂) ← get_fields_tags rule msg m rule.tags none
    pure ({ measurement := measurement, time := time, fields := fields,
            tags := if tags = [] then none else some tags }, logs₁ ++ logs₂)

/-- The loop body of `parse_message` for one rule: evaluate the match;
on a match, build the point, catching any exception at the per-rule
boundary and logging it instead of propagating. -/
def parseStep (msg : Dict) (acc : List Point × List LogMsg) (rule : Rule) :
    List Point × List LogMsg :=
  let cr := check_re msg rule.matchKey rule.regex
  match cr.1 with
  | none => (acc.1, acc.2 ++ cr.2)
  | some m =>
    match make_point rule msg m with
    | .ok (p, l₂) => (acc.1 ++ [p], acc.2 ++ cr.2 ++ l₂)
    | .error e => (acc.1, acc.2 ++ cr.2 ++ [.failedToGeneratePoint e])

/-- Model of `parse_message`: evaluate each rule in order, collecting the points
of all matches; per-rule failures are logged and skipped. -/
def parse_message (rules : List Rule) (msg : Dict) : List Point × List LogMsg :=
  rules.foldl (parseStep msg) ([], [])

/-- Model of `send_points`: log one diagnostic line per point, then write the
batch to the sink only when it is non-empty.  `sink` is the external
`client.write_points`; its result may be an exception.  Returns the list
of attempted batch writes, the diagnostics, and the outcome. -/
def send_points (sink : List Point → Except PyExc Unit) (points : List Point) :
    List (List Point) × List LogMsg × Except PyExc Unit :=
  let logs := points.map LogMsg.pointLine
  if points = [] then ([], logs, .ok ())
  else ([points], logs, sink points)

/-!
The dispatch handler (`LogFluxApplication.handle`) as a step function on
the mutable application state (message counter and committed loader; the
rule list is read-only and passed separately).  All exceptions raised by
the load → parse → send chain are caught at the per-message boundary.
-/

structure AppState where
  messageId : Nat
  loader : Option LoaderKind
deriving DecidableEq, Repr

/-- The observable outcome of handling one datagram: the new application
state, the batch writes attempted on the sink, and the diagnostics. -/
structure StepOut where
  state : AppState
  writes : List (List Point)
  logs : List LogMsg
deriving DecidableEq, Repr

/-- Model of `handle`: increment the message counter, normalize the payload,
return early on a falsy message, otherwise match rules, build points and
send them; any exception in that chain is caught and logged, never
propagated (the function is total and always yields a `StepOut`). -/
def handle (jl : String → Option Loaded) (sink : List Point → Except PyExc Unit)
    (rules : List Rule) (st : AppState) (raw : String) : StepOut :=
  let L := load_message jl st.loader raw
  let st' : AppState := { messageId := st.messageId + 1, loader := L.1 }
  match L.2.1 with
  | .error _ =>
    { state := st', writes := [], logs := L.2.2 ++ [.caughtExceptionHandlingMessage] }
  | .ok .null => { state := st', writes := [], logs := L.2.2 }
  | .ok (.dict d) =>
    if d = [] then { state := st', writes := [], logs := L.2.2 }
    else
      let P := parse_message rules d
      let S := send_points sink P.1
      match S.2.2 with
      | .ok _ => { state := st', writes := S.1, logs := L.2.2 ++ P.2 ++ S.2.1 }
      | .error _ =>
        { state := st', writes := S.1,
          logs := L.2.2 ++ P.2 ++ S.2.1 ++ [.caughtExceptionHandlingMessage] }

/-- Sequential processing of a stream of datagrams (the default
dispatch strategy: one message fully handled before the next). -/
def handleAll (jl : String → Option Loaded) (sink : List Point → Except PyExc Unit)
    (rules : List Rule) : AppState → List String →
    AppState × List (List Point) × List LogMsg
  | st, [] => (st, [], [])
  | st, raw :: rest =>
    let o := handle jl sink rules st raw
    let (st', ws, ls) := handleAll jl sink rules o.state rest
    (st', o.writes ++ ws, o.logs ++ ls)

/-- Python truthiness of a possibly-absent value (`if v:` on a variable
initialised to `None`). -/
def optTruthy : Option Value → Bool
  | some v => v.truthy
  | none => false

/-!
Concrete rules, messages and payloads from the spec's scenarios, used by
the scenario claims and as witnesses for the universally quantified ones.
-/

/-- Scenario A rule: match key `level`, regex `error`, no field/tag maps. -/
def ruleA : Rule :=
  { name := "scenario_a", matchKey := "level", regex := .lit "error",
    fields := none, tags := none }

/-- Scenario A payload (as given by the spec, without `@timestamp`). -/
def payloadA : String := "level: error\nhost: db1\n\nsomething broke"

/-- The normalized form of `payloadA` under the legacy loader. -/
def msgA : Dict := [("level", "error"), ("host", "db1"), ("message", "something broke")]

/-- Scenario A payload amended with an `@timestamp` header line. -/
def payloadA' : String :=
  "@timestamp: 2024-01-01T00:00:00Z\nlevel: error\nhost: db1\n\nsomething broke"

/-- The normalized form of `payloadA'` under the legacy loader. -/
def msgA' : Dict :=
  [("@timestamp", "2024-01-01T00:00:00Z"), ("level", "error"), ("host", "db1"),
   ("message", "something broke")]

/-- Scenario B rule: match key `level`, regex `^warn$`, field lookup
`{lookup: latency_ms, type: int}`. -/
def ruleB : Rule :=
  { name := "scenario_b", matchKey := "level", regex := .seq (.lit "warn") .eos,
    fields := some [("latency_ms", .compound "latency_ms" (some .int))],
    tags := none }

/-- Scenario B message (the parsed form of the spec's JSON input). -/
def msgB : Dict :=
  [("@timestamp", "2024-01-01T00:00:00Z"), ("level", "warn"), ("latency_ms", "120")]

/-- The Scenario B JSON payload text. -/
def payloadB : String :=
  "\x7b\"@timestamp\": \"2024-01-01T00:00:00Z\", \"level\": \"warn\", \"latency_ms\": \"120\"\x7d"

/-- A concrete stand-in for `json.loads` used by witnesses: recognises
the empty object, `null`, and the Scenario B object; everything else is
a `ValueError`. -/
def jlDemo : String → Option Loaded := fun s =>
  if s = "\x7b\x7d" then some (.dict [])
  else if s = "null" then some .null
  else if s = payloadB then some (.dict msgB)
  else none

/-- A sink that accepts every batch. -/
def sinkOk : List Point → Except PyExc Unit := fun _ => .ok ()

/-- A sink whose batch write raises (Scenario D). -/
def sinkFail : List Point → Except PyExc Unit := fun _ => .error (.sinkError "write_points failed")

/-!
Helper lemmas about the pipeline, shared by the claim theorems.
-/

theorem dinsert_mem {α : Type} (d : List (String × α)) (k : String) (v : α) :
    ∀ kv ∈ dinsert d k v, kv = (k, v) ∨ kv ∈ d := by
  intro kv hkv
  unfold dinsert at hkv
  split at hkv
  · rcases List.mem_map.mp hkv with ⟨p, hp, hpe⟩
    by_cases h : p.1 = k
    · simp only [h, if_pos] at hpe
      exact Or.inl hpe.symm
    · simp only [h, if_neg, not_false_iff] at hpe
      exact Or.inr (hpe ▸ hp)
  · rcases List.mem_append.mp hkv with h | h
    · exact Or.inr h
    · exact Or.inl (List.mem_singleton.mp h)

theorem parseStep_shape (msg : Dict) (acc : List Point × List LogMsg) (rule : Rule) :
    parseStep msg acc rule =
      (acc.1 ++ (parseStep msg ([], []) rule).1,
       acc.2 ++ (parseStep msg ([], []) rule).2) := by
  simp only [parseStep]
  cases (check_re msg rule.matchKey rule.regex).1 with
  | none => simp
  | some m =>
    cases hmp : make_point rule msg m with
    | ok pl => rcases pl with ⟨p, l⟩; simp [hmp]
    | error e => simp [hmp]

theorem parse_message_acc (msg : Dict) (rules : List Rule)
    (acc : List Point × List LogMsg) :
    rules.foldl (parseStep msg) acc =
      (acc.1 ++ (parse_message rules msg).1,
       acc.2 ++ (parse_message rules msg).2) := by
  induction rules generalizing acc with
  | nil => simp [parse_message]
  | cons r rs ih =>
    rw [List.foldl_cons, ih]
    conv_rhs => rw [parse_message, List.foldl_cons, ih]
    rw [parseStep_shape msg acc r, parseStep_shape msg ([], []) r]
    simp

theorem parse_message_cons (msg : Dict) (r : Rule) (rs : List Rule) :
    parse_message (r :: rs) msg =
      ((parseStep msg ([], []) r).1 ++ (parse_message rs msg).1,
       (parseStep msg ([], []) r).2 ++ (parse_message rs msg).2) := by
  rw [parse_message, List.foldl_cons, parse_message_acc, parseStep_shape msg ([], []) r]

theorem parseStep_nomatch (msg : Dict) (acc : List Point × List LogMsg) (rule : Rule)
    (h : (check_re msg rule.matchKey rule.regex).1 = none) :
    parseStep msg acc rule = (acc.1, acc.2 ++ (check_re msg rule.matchKey rule.regex).2) := by
  simp only [parseStep]
  rw [h]

theorem parseStep_fail (msg : Dict) (acc : List Point × List LogMsg) (rule : Rule)
    (m : MatchResult) (e : PyExc)
    (hm : (check_re msg rule.matchKey rule.regex).1 = some m)
    (hp : make_point rule msg m = .error e) :
    parseStep msg acc rule =
      (acc.1, acc.2 ++ (check_re msg rule.matchKey rule.regex).2 ++
        [.failedToGeneratePoint e]) := by
  simp only [parseStep]
  rw [hm]
  simp [hp]

theorem parseStep_ok (msg : Dict) (acc : List Point × List LogMsg) (rule : Rule)
    (m : MatchResult) (p : Point) (l : List LogMsg)
    (hm : (check_re msg rule.matchKey rule.regex).1 = some m)
    (hp : make_point rule msg m = .ok (p, l)) :
    parseStep msg acc rule =
      (acc.1 ++ [p], acc.2 ++ (check_re msg rule.matchKey rule.regex).2 ++ l) := by
  simp only [parseStep]
  rw [hm]
  simp [hp]

theorem gft_truthy (rule : Rule) (msg : Dict) (m : MatchResult) :
    ∀ (entries : List (String × Lookup)) (r₀ : VDict) (logs₀ : List LogMsg)
      (r : VDict) (logs : List LogMsg),
      (∀ kv ∈ r₀, kv.2.truthy = true) →
      gftEntries rule msg m entries r₀ logs₀ = .ok (r, logs) →
      ∀ kv ∈ r, kv.2.truthy = true := by
  intro entries
  induction entries with
  | nil =>
    intro r₀ logs₀ r logs h₀ heq
    simp only [gftEntries, Except.ok.injEq, Prod.mk.injEq] at heq
    exact heq.1 ▸ h₀
  | cons e rest ih =>
    rcases e with ⟨k, lk⟩
    intro r₀ logs₀ r logs h₀ heq
    simp only [gftEntries] at heq
    cases hrv : rule_value_lookup rule msg m lk with
    | error e' => rw [hrv] at heq; cases heq
    | ok vl =>
      rcases vl with ⟨v?, l⟩
      rw [hrv] at heq
      cases v? with
      | none => exact ih _ _ _ _ h₀ heq
      | some v =>
        by_cases hv : v.truthy
        · simp only [hv, if_pos] at heq
          refine ih _ _ _ _ ?_ heq
          intro kv hkv
          rcases dinsert_mem r₀ k v kv hkv with h | h
          · rw [h]; exact hv
          · exact h₀ kv h
        · simp only [hv, if_neg, Bool.false_eq_true, not_false_iff] at heq
          exact ih _ _ _ _ h₀ heq

theorem gft_fst_logs_indep (rule : Rule) (msg : Dict) (m : MatchResult) :
    ∀ (entries : List (String × Lookup)) (r₀ : VDict) (l₁ l₂ : List LogMsg),
      (gftEntries rule msg m entries r₀ l₁).map Prod.fst =
      (gftEntries rule msg m entries r₀ l₂).map Prod.fst := by
  intro entries
  induction entries with
  | nil => intro r₀ l₁ l₂; simp [gftEntries, Except.map]
  | cons e rest ih =>
    rcases e with ⟨k, lk⟩
    intro r₀ l₁ l₂
    simp only [gftEntries]
    cases hrv : rule_value_lookup rule msg m lk with
    | error e' => simp
    | ok vl =>
      rcases vl with ⟨v?, l⟩
      cases v? with
      | none => exact ih _ _ _
      | some v =>
        by_cases hv : v.truthy
        · simp only [hv, if_pos]; exact ih _ _ _
        · simp only [hv, if_neg, Bool.false_eq_true, not_false_iff]; exact ih _ _ _

theorem gft_skip (rule : Rule) (msg : Dict) (m : MatchResult) (k : String)
    (lk : Lookup) (rest : List (String × Lookup)) (r₀ : VDict)
    (logs₀ : List LogMsg) (v? : Option Value) (l : List LogMsg)
    (hrv : rule_value_lookup rule msg m lk = .ok (v?, l))
    (hf : optTruthy v? = false) :
    gftEntries rule msg m ((k, lk) :: rest) r₀ logs₀ =
      gftEntries rule msg m rest r₀ (logs₀ ++ l) := by
  simp only [gftEntries]
  rw [hrv]
  cases v? with
  | none => rfl
  | some v =>
    simp only [optTruthy] at hf
    simp [hf]

theorem handle_state (jl : String → Option Loaded)
    (sink : List Point → Except PyExc Unit) (rules : List Rule)
    (st : AppState) (raw : String) :
    (handle jl sink rules st raw).state =
      ⟨st.messageId + 1, (load_message jl st.loader raw).1⟩ := by
  simp only [handle]
  cases hres : (load_message jl st.loader raw).2.1 with
  | error e => rfl
  | ok msg =>
    cases msg with
    | null => rfl
    | dict d =>
      by_cases hd : d = []
      · simp [hd]
      · simp only [hd, if_neg, not_false_iff]
        cases (send_points sink (parse_message rules d).1).2.2 <;> rfl

theorem handle_loader_determines (jl : String → Option Loaded)
    (sink : List Point → Except PyExc Unit) (rules : List Rule)
    (st₁ st₂ : AppState) (raw : String) (h : st₁.loader = st₂.loader) :
    (handle jl sink rules st₁ raw).writes = (handle jl sink rules st₂ raw).writes ∧
    (handle jl sink rules st₁ raw).logs = (handle jl sink rules st₂ raw).logs := by
  simp only [handle, h]
  cases (load_message jl st₂.loader raw).2.1 with
  | error e => exact ⟨rfl, rfl⟩
  | ok msg =>
    cases msg with
    | null => exact ⟨rfl, rfl⟩
    | dict d =>
      by_cases hd : d = []
      · simp [hd]
      · simp only [hd, if_neg, not_false_iff]
        cases (send_points sink (parse_message rules d).1).2.2 <;> exact ⟨rfl, rfl⟩

theorem gft_head_error (rule : Rule) (msg : Dict) (m : MatchResult) (k : String)
    (lk : Lookup) (rest : List (String × Lookup)) (r₀ : VDict)
    (logs₀ : List LogMsg) (e : PyExc)
    (hrv : rule_value_lookup rule msg m lk = .error e) :
    gftEntries rule msg m ((k, lk) :: rest) r₀ logs₀ = .error e := by
  simp only [gftEntries]
  rw [hrv]

theorem parse_cons_fail (msg : Dict) (rule : Rule) (rs : List Rule)
    (m : MatchResult) (e : PyExc)
    (hm : (check_re msg rule.matchKey rule.regex).1 = some m)
    (hp : make_point rule msg m = .error e) :
    parse_message (rule :: rs) msg =
      ((parse_message rs msg).1,
       (check_re msg rule.matchKey rule.regex).2 ++
         [.failedToGeneratePoint e] ++ (parse_message rs msg).2) := by
  rw [parse_message_cons, parseStep_fail msg ([], []) rule m e hm hp]
  simp

/-!
The claim theorems.
-/

/-- C6: a message lacking a rule's target field never matches that rule
— `check_re` logs a diagnostic naming the missing key, yields a
non-match, never raises (it is total), and the rule contributes no point
to `parse_message`'s output; when the field is present, the compiled
pattern is evaluated against the whitespace-stripped value with
match-from-start semantics (for a literal pattern, a match is exactly a
prefix, so trailing unmatched text is permitted). -/
theorem C6_missing_target_field_silent_nonmatch (msg : Dict) (rule : Rule) :
    (msg.lookup rule.matchKey = none →
      check_re msg rule.matchKey rule.regex =
        (none, [.expectedKeyMissing rule.matchKey]) ∧
      parse_message [rule] msg = ([], [.expectedKeyMissing rule.matchKey])) ∧
    (∀ v, msg.lookup rule.matchKey = some v →
      check_re msg rule.matchKey rule.regex = (reMatch rule.regex (pyStrip v), [])) ∧
    (∀ p s, reMatch (.lit p) s = some [] ↔ p.toList <+: s.toList) := by
  refine ⟨fun h => ⟨?_, ?_⟩, fun v h => ?_, fun p s => ?_⟩
  · simp [check_re, h]
  · have hc : check_re msg rule.matchKey rule.regex =
        (none, [.expectedKeyMissing rule.matchKey]) := by simp [check_re, h]
    rw [parse_message, List.foldl_cons, List.foldl_nil,
      parseStep_nomatch msg ([], []) rule (by rw [hc])]
    rw [hc]
    rfl
  · simp [check_re, h]
  · simp [reMatch, matchCore]

/-- C6 witness: a message without the `level` key is a logged non-match
for the Scenario A rule and produces no points; with the key present the
pattern runs on the stripped value; the literal pattern `error` matches
any string it prefixes. -/
theorem C6_witness :
    ([("a", "b")] : Dict).lookup ruleA.matchKey = none ∧
    check_re [("a", "b")] ruleA.matchKey ruleA.regex =
      (none, [.expectedKeyMissing ruleA.matchKey]) ∧
    parse_message [ruleA] [("a", "b")] = ([], [.expectedKeyMissing ruleA.matchKey]) ∧
    reMatch (.lit "error") "error and more text" = some [] := by
  have h := C6_missing_target_field_silent_nonmatch [("a", "b")] ruleA
  have h1 := h.1 (by decide)
  exact ⟨by decide, h1.1, h1.2, (h.2.2 "error" "error and more text").mpr (by decide)⟩

/-- C8 counterexample: on the exact Scenario A payload
`level: error\nhost: db1\n\nsomething broke` the normalizer does parse
headers and body as claimed, and the rule does match, but point
construction fails with `KeyError('@timestamp')` (the payload has no
`@timestamp` key), so no point at all is produced — in particular no
point with field `value` = "something broke". -/
theorem C8_counterexample :
    load_message_legacy payloadA = .ok (.dict msgA) ∧
    msgA.lookup "message" = some "something broke" ∧
    (check_re msgA ruleA.matchKey ruleA.regex).1 = some [] ∧
    parse_message [ruleA] msgA =
      ([], [.failedToGeneratePoint (.keyError "@timestamp")]) := by
  refine ⟨by decide, by decide, by decide, by decide⟩

/-- C8 (amended): with the Scenario A payload amended to carry an
`@timestamp` header line, the normalizer parses each line before the
first blank line as `key: value` and stores the remaining text under
`message`, and the rule (no field lookups, so the implicit
`{'value': 'message'}` default applies) produces exactly one point whose
single field `value` is the string "something broke", with no tags. -/
theorem C8_scenario_a_with_timestamp :
    load_message_legacy payloadA' = .ok (.dict msgA') ∧
    parse_message [ruleA] msgA' =
      ([{ measurement := "scenario_a", time := "2024-01-01T00:00:00Z",
          fields := [("value", .str "something broke")], tags := none }], []) := by
  refine ⟨by decide, by decide⟩

/-- C7: Scenario B — on the parsed JSON message
`{"@timestamp": "2024-01-01T00:00:00Z", "level": "warn", "latency_ms": "120"}`
with a rule matching key `level` against `^warn$` and the compound field
lookup `{lookup: latency_ms, type: int}`, the built point's `latency_ms`
field is the integer 120.  In general, a recorded coercion is applied
whenever the resolved value is truthy (and its failure propagates out of
the resolver), and a point-construction failure — including a coercion
failure — is caught at the rule's point boundary by `parse_message`,
logged, and skipped, with the remaining rules unaffected. -/
theorem C7_scenario_b_integer_coercion :
    parse_message [ruleB] msgB =
      ([{ measurement := "scenario_b", time := "2024-01-01T00:00:00Z",
          fields := [("latency_ms", .int 120)], tags := none }], []) ∧
    (∀ rule msg m ref t s v,
      lookupRaw rule msg m ref = .ok s → (Value.str s).truthy = true →
      applyVType t s = .ok v →
      rule_value_lookup rule msg m (.compound ref (some t)) = .ok (some v, [])) ∧
    (∀ rule msg m ref t s e,
      lookupRaw rule msg m ref = .ok s → (Value.str s).truthy = true →
      applyVType t s = .error e →
      rule_value_lookup rule msg m (.compound ref (some t)) = .error e) ∧
    (∀ rule rs msg m e,
      (check_re msg rule.matchKey rule.regex).1 = some m →
      make_point rule msg m = .error e →
      parse_message (rule :: rs) msg =
        ((parse_message rs msg).1,
         (check_re msg rule.matchKey rule.regex).2 ++
           [.failedToGeneratePoint e] ++ (parse_message rs msg).2)) := by
  refine ⟨by decide, ?_, ?_, fun rule rs msg m e hm hp => parse_cons_fail msg rule rs m e hm hp⟩
  · intro rule msg m ref t s v hraw htr happ
    simp [rule_value_lookup, hraw, htr, happ]
  · intro rule msg m ref t s e hraw htr happ
    simp [rule_value_lookup, hraw, htr, happ]

/-- C7 witness: the general conjuncts applied at Scenario B's inputs —
the resolver applies the `int` coercion to the truthy resolved string
"120", and a rule whose coercion fails (field `level` with type `int` on
value "warn") is caught and logged by `parse_message`. -/
theorem C7_witness :
    rule_value_lookup ruleB msgB [] (.compound "latency_ms" (some .int)) =
      .ok (some (.int 120), []) ∧
    parse_message
      [{ name := "bad_coercion", matchKey := "level",
         regex := .seq (.lit "warn") .eos,
         fields := some [("level_int", .compound "level" (some .int))],
         tags := none }] msgB =
      ([], [.failedToGeneratePoint
        (.valueError "invalid literal for int: warn")]) := by
  have h := C7_scenario_b_integer_coercion
  refine ⟨h.2.1 ruleB msgB [] "latency_ms" .int "120" (.int 120)
    (by decide) (by decide) (by decide), ?_⟩
  have h4 := h.2.2.2
    { name := "bad_coercion", matchKey := "level", regex := .seq (.lit "warn") .eos,
      fields := some [("level_int", .compound "level" (some .int))], tags := none }
    [] msgB [] (.valueError "invalid literal for int: warn") (by decide) (by decide)
  rw [h4]
  decide

/-- C3: a dotted lookup `<field>.<group>` whose `<field>` prefix differs
from the rule's match key raises an error in
`rule_value_match_lookup` (the source's `raise NotImplemented(...)`
actually raises `TypeError`, because the `NotImplemented` singleton is
not callable — but it raises either way); the error is not caught by the
resolver's `except KeyError` (the lookup is never silently resolved or
defaulted), it makes the rule's point construction fail, and
`parse_message` abandons that rule's point and logs the failure. -/
theorem C3_cross_field_lookup_fails_loudly :
    (∀ (rule : Rule) (m : MatchResult) (lookup k g : String),
      pySplitOnce lookup "." = some (k, g) → k ≠ rule.matchKey →
      rule_value_match_lookup rule m lookup =
        .error (.typeError "NotImplementedType object is not callable")) ∧
    (∀ (rule : Rule) (msg : Dict) (m : MatchResult) (lookup k g : String)
      (vt : Option VType),
      pySplitOnce lookup "." = some (k, g) → k ≠ rule.matchKey →
      pyContains lookup '.' = true →
      rule_value_lookup rule msg m (.plain lookup) =
        .error (.typeError "NotImplementedType object is not callable") ∧
      rule_value_lookup rule msg m (.compound lookup vt) =
        .error (.typeError "NotImplementedType object is not callable")) ∧
    (∀ (rule : Rule) (msg : Dict) (m : MatchResult) (lookup k g t fk : String)
      (rest : List (String × Lookup)),
      pySplitOnce lookup "." = some (k, g) → k ≠ rule.matchKey →
      pyContains lookup '.' = true →
      msg.lookup "@timestamp" = some t →
      rule.fields = some ((fk, .plain lookup) :: rest) →
      make_point rule msg m =
        .error (.typeError "NotImplementedType object is not callable")) ∧
    (∀ (rule : Rule) (rs : List Rule) (msg : Dict) (m : MatchResult) (e : PyExc),
      (check_re msg rule.matchKey rule.regex).1 = some m →
      make_point rule msg m = .error e →
      (parse_message (rule :: rs) msg).1 = (parse_message rs msg).1 ∧
      LogMsg.failedToGeneratePoint e ∈ (parse_message (rule :: rs) msg).2) := by
  have h1 : ∀ (rule : Rule) (m : MatchResult) (lookup k g : String),
      pySplitOnce lookup "." = some (k, g) → k ≠ rule.matchKey →
      rule_value_match_lookup rule m lookup =
        .error (.typeError "NotImplementedType object is not callable") := by
    intro rule m lookup k g hs hk
    simp [rule_value_match_lookup, hs, hk]
  have h2 : ∀ (rule : Rule) (msg : Dict) (m : MatchResult) (lookup k g : String)
      (vt : Option VType),
      pySplitOnce lookup "." = some (k, g) → k ≠ rule.matchKey →
      pyContains lookup '.' = true →
      rule_value_lookup rule msg m (.plain lookup) =
        .error (.typeError "NotImplementedType object is not callable") ∧
      rule_value_lookup rule msg m (.compound lookup vt) =
        .error (.typeError "NotImplementedType object is not callable") := by
    intro rule msg m lookup k g vt hs hk hc
    have hlr : lookupRaw rule msg m lookup =
        .error (.typeError "NotImplementedType object is not callable") := by
      simp [lookupRaw, hc, h1 rule m lookup k g hs hk]
    exact ⟨by simp [rule_value_lookup, hlr, Bind.bind, Except.bind],
      by simp [rule_value_lookup, hlr, Bind.bind, Except.bind]⟩
  refine ⟨h1, h2, ?_, ?_⟩
  · intro rule msg m lookup k g t fk rest hs hk hc hts hfields
    have hg := gft_head_error rule msg m fk (.plain lookup) rest [] []
      (.typeError "NotImplementedType object is not callable")
      ((h2 rule msg m lookup k g none hs hk hc).1)
    simp [make_point, hts, get_fields_tags, hfields, hg, Bind.bind, Except.bind]
  · intro rule rs msg m e hm hp
    rw [parse_cons_fail msg rule rs m e hm hp]
    simp

/-- C3 witness: a rule on key `level` with field lookup `other.code`
(prefix `other` ≠ `level`): the resolver raises `TypeError`, point
construction fails, and `parse_message` produces no point and logs the
failure. -/
theorem C3_witness :
    rule_value_lookup
      { name := "cross", matchKey := "level", regex := .lit "warn",
        fields := some [("f", .plain "other.code")], tags := none }
      msgB [] (.plain "other.code") =
      .error (.typeError "NotImplementedType object is not callable") ∧
    make_point
      { name := "cross", matchKey := "level", regex := .lit "warn",
        fields := some [("f", .plain "other.code")], tags := none }
      msgB [] =
      .error (.typeError "NotImplementedType object is not callable") ∧
    (parse_message
      [{ name := "cross", matchKey := "level", regex := .lit "warn",
         fields := some [("f", .plain "other.code")], tags := none }] msgB).1 = [] ∧
    LogMsg.failedToGeneratePoint
        (.typeError "NotImplementedType object is not callable") ∈
      (parse_message
        [{ name := "cross", matchKey := "level", regex := .lit "warn",
           fields := some [("f", .plain "other.code")], tags := none }] msgB).2 := by
  have h := C3_cross_field_lookup_fails_loudly
  have hmk := h.2.2.1
    { name := "cross", matchKey := "level", regex := .lit "warn",
      fields := some [("f", .plain "other.code")], tags := none }
    msgB [] "other.code" "other" "code" "2024-01-01T00:00:00Z" "f" []
    (by decide) (by decide) (by decide) (by decide) (by decide)
  have hpm := h.2.2.2
    { name := "cross", matchKey := "level", regex := .lit "warn",
      fields := some [("f", .plain "other.code")], tags := none }
    [] msgB [] (.typeError "NotImplementedType object is not callable")
    (by decide) hmk
  exact ⟨(h.2.1
    { name := "cross", matchKey := "level", regex := .lit "warn",
      fields := some [("f", .plain "other.code")], tags := none }
    msgB [] "other.code" "other" "code" none
    (by decide) (by decide) (by decide)).1, hmk, hpm.1, hpm.2⟩

/-- A message with a falsy (empty-string) value, used by witnesses. -/
def msgF : Dict := [("@timestamp", "T"), ("level", "warn"), ("z", "")]

/-- C4: the fields/tags maps built by `get_fields_tags` contain only
keys whose resolved values are truthy; a lookup that resolves to a falsy
value (empty string, zero int/float, or `None` from a caught missing
reference) is omitted from the map exactly as if the lookup entry were
absent — the resulting map is identical (only the logged diagnostics can
differ). -/
theorem C4_falsy_values_dropped :
    (∀ (rule : Rule) (msg : Dict) (m : MatchResult)
      (lookups default : Option (List (String × Lookup))) (r : VDict)
      (logs : List LogMsg),
      get_fields_tags rule msg m lookups default = .ok (r, logs) →
      ∀ kv ∈ r, kv.2.truthy = true) ∧
    (∀ (rule : Rule) (msg : Dict) (m : MatchResult) (k : String) (lk : Lookup)
      (rest : List (String × Lookup)) (r₀ : VDict) (logs₀ : List LogMsg)
      (v? : Option Value) (l : List LogMsg),
      rule_value_lookup rule msg m lk = .ok (v?, l) → optTruthy v? = false →
      (gftEntries rule msg m ((k, lk) :: rest) r₀ logs₀).map Prod.fst =
        (gftEntries rule msg m rest r₀ logs₀).map Prod.fst) := by
  constructor
  · intro rule msg m lookups default r logs h
    unfold get_fields_tags at h
    exact gft_truthy rule msg m _ [] [] r logs (fun kv hkv => by cases hkv) h
  · intro rule msg m k lk rest r₀ logs₀ v? l hrv hf
    rw [gft_skip rule msg m k lk rest r₀ logs₀ v? l hrv hf]
    exact gft_fst_logs_indep rule msg m rest r₀ (logs₀ ++ l) logs₀

/-- C4 witness: on a message where `z` is the empty string, a fields map
over lookups `z` and `level` keeps only the truthy `level` value, and
dropping the falsy `z` entry gives the same map as omitting the lookup. -/
theorem C4_witness :
    get_fields_tags ruleB msgF []
        (some [("a", .plain "z"), ("b", .plain "level")]) none =
      .ok ([("b", .str "warn")], []) ∧
    (("b", Value.str "warn") ∈ ([("b", Value.str "warn")] : VDict) →
      (Value.str "warn").truthy = true) ∧
    (gftEntries ruleB msgF [] [("a", .plain "z"), ("b", .plain "level")] [] []).map
        Prod.fst =
      (gftEntries ruleB msgF [] [("b", .plain "level")] [] []).map Prod.fst := by
  have h := C4_falsy_values_dropped
  refine ⟨by decide, ?_, ?_⟩
  · intro hm
    exact h.1 ruleB msgF [] (some [("a", .plain "z"), ("b", .plain "level")]) none
      [("b", .str "warn")] [] (by decide) ("b", .str "warn") hm
  · exact h.2 ruleB msgF [] "a" (.plain "z") [("b", .plain "level")] [] []
      (some (.str "")) [] (by decide) (by decide)

/-- C5: a rule whose resolved field map is empty fails `make_point`'s
assertion (`AssertionError`, raised after the `@timestamp` lookup
succeeded), an emitted point never carries an empty fields map, and
`parse_message` catches the per-rule failure, logs it, and continues
with the remaining rules — the failure never escapes `parse_message`,
which is total. -/
theorem C5_empty_fields_abandoned :
    (∀ (rule : Rule) (msg : Dict) (m : MatchResult) (t : String)
      (logs : List LogMsg),
      msg.lookup "@timestamp" = some t →
      get_fields_tags rule msg m rule.fields
          (some [("value", .plain "message")]) = .ok ([], logs) →
      make_point rule msg m =
        .error (.assertionError "Unable to populate field values")) ∧
    (∀ (rule : Rule) (msg : Dict) (m : MatchResult) (p : Point) (l : List LogMsg),
      make_point rule msg m = .ok (p, l) → p.fields ≠ []) ∧
    (∀ (rule : Rule) (rs : List Rule) (msg : Dict) (m : MatchResult) (e : PyExc),
      (check_re msg rule.matchKey rule.regex).1 = some m →
      make_point rule msg m = .error e →
      (parse_message (rule :: rs) msg).1 = (parse_message rs msg).1 ∧
      (parse_message (rule :: rs) msg).2 =
        (check_re msg rule.matchKey rule.regex).2 ++ [.failedToGeneratePoint e] ++
          (parse_message rs msg).2) := by
  refine ⟨?_, ?_, ?_⟩
  · intro rule msg m t logs hts hgft
    simp [make_point, hts, hgft, Bind.bind, Except.bind]
  · intro rule msg m p l h
    cases hts : msg.lookup "@timestamp" with
    | none => simp [make_point, hts, Bind.bind, Except.bind] at h
    | some t =>
      cases hgft : get_fields_tags rule msg m rule.fields
          (some [("value", .plain "message")]) with
      | error e => simp [make_point, hts, hgft, Bind.bind, Except.bind] at h
      | ok fl =>
        rcases fl with ⟨fields, logs₁⟩
        by_cases hf : fields = []
        · simp [make_point, hts, hgft, hf, Bind.bind, Except.bind] at h
        · cases hgt : get_fields_tags rule msg m rule.tags none with
          | error e => simp [make_point, hts, hgft, hf, hgt, Bind.bind, Except.bind] at h
          | ok tl =>
            rcases tl with ⟨tags, logs₂⟩
            simp only [make_point, hts, hgft, hf, hgt, Bind.bind, Except.bind,
              Except.map, pure, Except.pure, Except.ok.injEq,
              Prod.mk.injEq, ite_false, ite_true, if_neg, if_pos,
              eq_self_iff_true, not_false_iff] at h
            rw [← h.1]
            simpa using hf
  · intro rule rs msg m e hm hp
    rw [parse_cons_fail msg rule rs m e hm hp]
    simp

/-- C5 witness: a rule whose only field lookup resolves to the empty
string produces an empty field map, so its point is abandoned with the
assertion error and `parse_message` logs the failure and emits no
point, while an actually produced point (Scenario B) has non-empty
fields. -/
theorem C5_witness :
    make_point
      { name := "allfalsy", matchKey := "level", regex := .lit "warn",
        fields := some [("v", .plain "z")], tags := none }
      msgF [] = .error (.assertionError "Unable to populate field values") ∧
    (parse_message
      [{ name := "allfalsy", matchKey := "level", regex := .lit "warn",
         fields := some [("v", .plain "z")], tags := none }] msgF).1 = [] ∧
    ({ measurement := "scenario_b", time := "2024-01-01T00:00:00Z",
       fields := [("latency_ms", Value.int 120)],
       tags := none } : Point).fields ≠ [] := by
  have h := C5_empty_fields_abandoned
  have h1 := h.1
    { name := "allfalsy", matchKey := "level", regex := .lit "warn",
      fields := some [("v", .plain "z")], tags := none }
    msgF [] "T" [] (by decide) (by decide)
  refine ⟨h1, ?_, ?_⟩
  · have h3 := (h.2.2
      { name := "allfalsy", matchKey := "level", regex := .lit "warn",
        fields := some [("v", .plain "z")], tags := none }
      [] msgF [] (.assertionError "Unable to populate field values")
      (by decide) h1).1
    rw [h3]
    decide
  · exact h.2.1
      { name := "scenario_b", matchKey := "level", regex := .seq (.lit "warn") .eos,
        fields := some [("latency_ms", .compound "latency_ms" (some .int))],
        tags := none }
      msgB []
      { measurement := "scenario_b", time := "2024-01-01T00:00:00Z",
        fields := [("latency_ms", Value.int 120)], tags := none }
      [] (by decide)

/-- C9: on a message without `@timestamp`, `make_point` fails with
`KeyError('@timestamp')` for every rule and every match — the timestamp
is read before any field resolution, so the failure is identical
whatever the rule's lookups would do; each matched rule's failure is
caught and logged at the per-rule boundary in `parse_message`, the
resulting batch is empty, and the handler attempts no sink write. -/
theorem C9_missing_timestamp_fails_matched_rules :
    (∀ (rule : Rule) (msg : Dict) (m : MatchResult),
      msg.lookup "@timestamp" = none →
      make_point rule msg m = .error (.keyError "@timestamp")) ∧
    (∀ (rules : List Rule) (msg : Dict), msg.lookup "@timestamp" = none →
      (parse_message rules msg).1 = [] ∧
      (∀ rule ∈ rules, ∀ m, (check_re msg rule.matchKey rule.regex).1 = some m →
        LogMsg.failedToGeneratePoint (.keyError "@timestamp") ∈
          (parse_message rules msg).2)) ∧
    (∀ (jl : String → Option Loaded) (sink : List Point → Except PyExc Unit)
      (rules : List Rule) (st : AppState) (raw : String) (d : Dict),
      (load_message jl st.loader raw).2.1 = .ok (.dict d) →
      d.lookup "@timestamp" = none →
      (handle jl sink rules st raw).writes = []) := by
  have hmk : ∀ (rule : Rule) (msg : Dict) (m : MatchResult),
      msg.lookup "@timestamp" = none →
      make_point rule msg m = .error (.keyError "@timestamp") := by
    intro rule msg m h
    simp [make_point, h, Bind.bind, Except.bind]
  have hpm : ∀ (rules : List Rule) (msg : Dict), msg.lookup "@timestamp" = none →
      (parse_message rules msg).1 = [] ∧
      (∀ rule ∈ rules, ∀ m, (check_re msg rule.matchKey rule.regex).1 = some m →
        LogMsg.failedToGeneratePoint (.keyError "@timestamp") ∈
          (parse_message rules msg).2) := by
    intro rules msg hts
    induction rules with
    | nil =>
      refine ⟨by simp [parse_message], ?_⟩
      intro rule h
      cases h
    | cons r rs ih =>
      obtain ⟨ih1, ih2⟩ := ih
      have hstep : (parseStep msg ([], []) r).1 = [] := by
        cases hm : (check_re msg r.matchKey r.regex).1 with
        | none => rw [parseStep_nomatch msg ([], []) r hm]
        | some m =>
          rw [parseStep_fail msg ([], []) r m (.keyError "@timestamp") hm
            (hmk r msg m hts)]
      refine ⟨?_, ?_⟩
      · rw [parse_message_cons]
        simp [hstep, ih1]
      · intro rule hr m hm
        rw [parse_message_cons]
        rcases List.mem_cons.mp hr with rfl | hr'
        · rw [parseStep_fail msg ([], []) rule m (.keyError "@timestamp") hm
            (hmk rule msg m hts)]
          simp
        · exact List.mem_append_right _ (ih2 rule hr' m hm)
  refine ⟨hmk, hpm, ?_⟩
  intro jl sink rules st raw d hld hts
  have hpts : (parse_message rules d).1 = [] := (hpm rules d hts).1
  simp only [handle, hld]
  by_cases hd : d = []
  · simp [hd]
  · simp only [hd, ite_false, if_neg, not_false_iff]
    simp [send_points, hpts]

/-- C9 witness: the Scenario A message (no `@timestamp`) matched by the
Scenario A rule — the point fails with `KeyError('@timestamp')`, the
batch is empty, the failure is logged, and the handler writes nothing. -/
theorem C9_witness :
    make_point ruleA msgA [] = .error (.keyError "@timestamp") ∧
    (parse_message [ruleA] msgA).1 = [] ∧
    LogMsg.failedToGeneratePoint (.keyError "@timestamp") ∈
      (parse_message [ruleA] msgA).2 ∧
    (handle jlDemo sinkOk [ruleA] ⟨0, some .legacy⟩ payloadA).writes = [] := by
  have h := C9_missing_timestamp_fails_matched_rules
  have h2 := h.2.1 [ruleA] msgA (by decide)
  exact ⟨h.1 ruleA msgA [] (by decide), h2.1,
    h2.2 ruleA (by decide) [] (by decide),
    h.2.2 jlDemo sinkOk [ruleA] ⟨0, some .legacy⟩ payloadA msgA (by decide) (by decide)⟩

/-- C1: format auto-detection commits exactly once and stays fixed.
With no loader committed, a first payload whose JSON parse succeeds
commits JSON (and that parse result is the message); a first payload
whose JSON parse raises `ValueError` commits legacy and the same payload
is re-parsed with the legacy loader.  With a committed loader, every
payload is parsed with exactly that loader and no detection happens; the
committed loader survives `handle` and whole payload sequences, and a
payload that fails under the committed loader is caught and logged as a
per-message failure with the commitment unchanged. -/
theorem C1_format_detection_commits_once (jl : String → Option Loaded) :
    (∀ (raw : String) (m : Loaded), jl (pyStrip raw) = some m →
      load_message jl none raw = (some .json, .ok m, [.detectedJson])) ∧
    (∀ raw : String, jl (pyStrip raw) = none →
      load_message jl none raw =
        (some .legacy, load_message_legacy raw, [.detectedLegacy])) ∧
    (∀ (k : LoaderKind) (raw : String),
      load_message jl (some k) raw = (some k, runLoader jl k raw, [])) ∧
    (∀ (sink : List Point → Except PyExc Unit) (rules : List Rule)
      (st : AppState) (raw : String) (k : LoaderKind),
      st.loader = some k →
      (handle jl sink rules st raw).state.loader = some k) ∧
    (∀ (sink : List Point → Except PyExc Unit) (rules : List Rule)
      (st : AppState) (raw : String) (k : LoaderKind) (e : PyExc),
      st.loader = some k → runLoader jl k raw = .error e →
      handle jl sink rules st raw =
        { state := ⟨st.messageId + 1, some k⟩, writes := [],
          logs := [.caughtExceptionHandlingMessage] }) ∧
    (∀ (sink : List Point → Except PyExc Unit) (rules : List Rule)
      (payloads : List String) (st : AppState) (k : LoaderKind),
      st.loader = some k →
      ((handleAll jl sink rules st payloads).1).loader = some k) ∧
    (∀ (sink : List Point → Except PyExc Unit) (rules : List Rule)
      (raw : String) (payloads : List String) (st : AppState),
      st.loader = none →
      ((handleAll jl sink rules st (raw :: payloads)).1).loader =
        some (if (jl (pyStrip raw)).isSome then .json else .legacy)) := by
  have h4 : ∀ (sink : List Point → Except PyExc Unit) (rules : List Rule)
      (st : AppState) (raw : String) (k : LoaderKind),
      st.loader = some k →
      (handle jl sink rules st raw).state.loader = some k := by
    intro sink rules st raw k h
    rw [handle_state, h]
    simp [load_message]
  have h6 : ∀ (sink : List Point → Except PyExc Unit) (rules : List Rule)
      (payloads : List String) (st : AppState) (k : LoaderKind),
      st.loader = some k →
      ((handleAll jl sink rules st payloads).1).loader = some k := by
    intro sink rules payloads
    induction payloads with
    | nil => intro st k h; simpa [handleAll] using h
    | cons raw rest ih =>
      intro st k h
      simp only [handleAll]
      exact ih (handle jl sink rules st raw).state k (h4 sink rules st raw k h)
  refine ⟨?_, ?_, ?_, h4, ?_, h6, ?_⟩
  · intro raw m h
    simp [load_message, load_message_json, runLoader, h]
  · intro raw h
    simp [load_message, load_message_json, runLoader, h]
  · intro k raw
    rfl
  · intro sink rules st raw k e h herr
    simp [handle, h, load_message, herr]
  · intro sink rules raw payloads st h
    simp only [handleAll]
    have hfirst : (handle jl sink rules st raw).state.loader =
        some (if (jl (pyStrip raw)).isSome then .json else .legacy) := by
      rw [handle_state, h]
      cases hj : jl (pyStrip raw) with
      | none => simp [load_message, load_message_json, hj]
      | some m => simp [load_message, load_message_json, hj]
    exact h6 sink rules payloads (handle jl sink rules st raw).state _ hfirst

/-- C1 witness: jlDemo commits JSON on a first `{}` payload; a first
non-JSON payload commits legacy and is legacy-parsed; a committed-JSON
process fed a legacy-shaped payload keeps JSON, fails that message only,
and its commitment survives a subsequent payload sequence. -/
theorem C1_witness :
    load_message jlDemo none "\x7b\x7d" =
      (some .json, .ok (.dict []), [.detectedJson]) ∧
    load_message jlDemo none payloadA =
      (some .legacy, load_message_legacy payloadA, [.detectedLegacy]) ∧
    handle jlDemo sinkOk [ruleA] ⟨0, some .json⟩ payloadA =
      { state := ⟨1, some .json⟩, writes := [],
        logs := [.caughtExceptionHandlingMessage] } ∧
    ((handleAll jlDemo sinkOk [ruleA] ⟨0, none⟩ ["\x7b\x7d", payloadA]).1).loader =
      some .json := by
  have h := C1_format_detection_commits_once jlDemo
  refine ⟨h.1 "\x7b\x7d" (.dict []) (by decide), h.2.1 payloadA (by decide),
    h.2.2.2.2.1 sinkOk [ruleA] ⟨0, some .json⟩ payloadA .json
      (.valueError "invalid JSON") rfl (by decide), ?_⟩
  have h7 := h.2.2.2.2.2.2 sinkOk [ruleA] "\x7b\x7d" [payloadA] ⟨0, none⟩ rfl
  rw [h7]
  decide

/-- C2: per-message error containment.  `handle` is total; it always
advances the message counter; a normalization failure is caught and
logged at the message boundary (with no sink write); a sink batch-write
failure is caught and logged the same way; the application state after a
message is entirely independent of the sink's behaviour, and the
handling of any next datagram depends only on the committed loader, so
one message's failure cannot affect another message or the listener. -/
theorem C2_per_message_error_containment
    (jl : String → Option Loaded) (sink sink' : List Point → Except PyExc Unit)
    (rules : List Rule) (st : AppState) (raw : String) :
    (handle jl sink rules st raw).state.messageId = st.messageId + 1 ∧
    (handle jl sink rules st raw).state = (handle jl sink' rules st raw).state ∧
    (∀ e, (load_message jl st.loader raw).2.1 = .error e →
      handle jl sink rules st raw =
        { state := ⟨st.messageId + 1, (load_message jl st.loader raw).1⟩,
          writes := [],
          logs := (load_message jl st.loader raw).2.2 ++
            [.caughtExceptionHandlingMessage] }) ∧
    (∀ (d : Dict) (e : PyExc),
      (load_message jl st.loader raw).2.1 = .ok (.dict d) → d ≠ [] →
      (parse_message rules d).1 ≠ [] →
      sink (parse_message rules d).1 = .error e →
      LogMsg.caughtExceptionHandlingMessage ∈ (handle jl sink rules st raw).logs) ∧
    (∀ (st₂ : AppState) (raw₂ : String),
      st₂.loader = (handle jl sink rules st raw).state.loader →
      (handle jl sink' rules st₂ raw₂).writes =
        (handle jl sink' rules (handle jl sink rules st raw).state raw₂).writes ∧
      (handle jl sink' rules st₂ raw₂).logs =
        (handle jl sink' rules (handle jl sink rules st raw).state raw₂).logs) := by
  refine ⟨?_, ?_, ?_, ?_, ?_⟩
  · rw [handle_state]
  · rw [handle_state, handle_state]
  · intro e he
    simp [handle, he]
  · intro d e hld hd hpts hsink
    simp only [handle, hld, hd, ite_false, if_neg, not_false_iff]
    have hsp : (send_points sink (parse_message rules d).1).2.2 = .error e := by
      simp [send_points, hpts, hsink]
    rw [hsp]
    simp
  · intro st₂ raw₂ h
    exact handle_loader_determines jl sink' rules st₂
      (handle jl sink rules st raw).state raw₂ h

/-- C2 witness (Scenario D): the sink's batch write raises on the
Scenario B message — the failure is logged at the message boundary, the
resulting state is the same as with a working sink, and the next
datagram is processed identically from that state (here: it produces the
same writes and logs as a fresh handler with the same committed loader). -/
theorem C2_witness :
    (handle jlDemo sinkFail [ruleB] ⟨0, some .json⟩ payloadB).state.messageId =
      0 + 1 ∧
    (handle jlDemo sinkFail [ruleB] ⟨0, some .json⟩ payloadB).state =
      (handle jlDemo sinkOk [ruleB] ⟨0, some .json⟩ payloadB).state ∧
    LogMsg.caughtExceptionHandlingMessage ∈
      (handle jlDemo sinkFail [ruleB] ⟨0, some .json⟩ payloadB).logs ∧
    (handle jlDemo sinkOk [ruleB] ⟨5, some .json⟩ payloadB).writes =
      (handle jlDemo sinkOk [ruleB]
        (handle jlDemo sinkFail [ruleB] ⟨0, some .json⟩ payloadB).state
        payloadB).writes := by
  have h := C2_per_message_error_containment jlDemo sinkFail sinkOk [ruleB]
    ⟨0, some .json⟩ payloadB
  refine ⟨h.1, h.2.1, ?_, ?_⟩
  · exact h.2.2.2.1 msgB (.sinkError "write_points failed") (by decide)
      (by decide) (by decide) (by decide)
  · exact (h.2.2.2.2 ⟨5, some .json⟩ payloadB (by decide)).1

/-- C10: a falsy normalized message (`{}` or `null`) makes the handler
return immediately after normalization — no rule is evaluated, no point
is built, nothing reaches the sink, and the only diagnostics are the
loader's; in general the handler attempts a sink write exactly when the
parsed batch is non-empty, and an empty batch is never written. -/
theorem C10_falsy_message_early_return :
    (∀ (jl : String → Option Loaded) (sink : List Point → Except PyExc Unit)
      (rules : List Rule) (st : AppState) (raw : String) (msg : Loaded),
      (load_message jl st.loader raw).2.1 = .ok msg → msg.truthy = false →
      handle jl sink rules st raw =
        { state := ⟨st.messageId + 1, (load_message jl st.loader raw).1⟩,
          writes := [], logs := (load_message jl st.loader raw).2.2 }) ∧
    (∀ (jl : String → Option Loaded) (sink : List Point → Except PyExc Unit)
      (rules : List Rule) (st : AppState) (raw : String) (d : Dict),
      (load_message jl st.loader raw).2.1 = .ok (.dict d) → d ≠ [] →
      (handle jl sink rules st raw).writes =
        (if (parse_message rules d).1 = [] then []
         else [(parse_message rules d).1])) ∧
    (∀ (jl : String → Option Loaded) (sink : List Point → Except PyExc Unit)
      (rules : List Rule) (st : AppState) (raw : String) (b : List Point),
      b ∈ (handle jl sink rules st raw).writes → b ≠ []) := by
  have h2 : ∀ (jl : String → Option Loaded) (sink : List Point → Except PyExc Unit)
      (rules : List Rule) (st : AppState) (raw : String) (d : Dict),
      (load_message jl st.loader raw).2.1 = .ok (.dict d) → d ≠ [] →
      (handle jl sink rules st raw).writes =
        (if (parse_message rules d).1 = [] then []
         else [(parse_message rules d).1]) := by
    intro jl sink rules st raw d hld hd
    simp only [handle, hld, hd, ite_false, if_neg, not_false_iff]
    cases hs : (send_points sink (parse_message rules d).1).2.2 with
    | ok u =>
      show (send_points sink (parse_message rules d).1).1 = _
      by_cases hp : (parse_message rules d).1 = [] <;> simp [send_points, hp]
    | error e =>
      show (send_points sink (parse_message rules d).1).1 = _
      by_cases hp : (parse_message rules d).1 = [] <;> simp [send_points, hp]
  refine ⟨?_, h2, ?_⟩
  · intro jl sink rules st raw msg hld ht
    cases msg with
    | null => simp [handle, hld]
    | dict d =>
      have hd : d = [] := by simpa [Loaded.truthy] using ht
      simp [handle, hld, hd]
  · intro jl sink rules st raw b hb
    cases hld : (load_message jl st.loader raw).2.1 with
    | error e =>
      simp only [handle, hld] at hb
      cases hb
    | ok msg =>
      cases msg with
      | null =>
        simp only [handle, hld] at hb
        cases hb
      | dict d =>
        by_cases hd : d = []
        · simp only [handle, hld, hd, ite_true, if_pos] at hb
          cases hb
        · rw [h2 jl sink rules st raw d hld hd] at hb
          by_cases hp : (parse_message rules d).1 = []
          · simp [hp] at hb
          · simp only [hp, ite_false, if_neg, not_false_iff, List.mem_singleton] at hb
            rw [hb]
            exact hp

/-- C10 witness: the `null` and `{}` payloads produce no writes, no
parse diagnostics and no points; a non-falsy message with one matched
rule yields exactly one non-empty batch. -/
theorem C10_witness :
    handle jlDemo sinkOk [ruleA] ⟨0, some .json⟩ "null" =
      { state := ⟨1, some .json⟩, writes := [], logs := [] } ∧
    handle jlDemo sinkOk [ruleA] ⟨0, some .json⟩ "\x7b\x7d" =
      { state := ⟨1, some .json⟩, writes := [], logs := [] } ∧
    (handle jlDemo sinkOk [ruleA] ⟨0, some .legacy⟩ payloadA').writes =
      [[{ measurement := "scenario_a", time := "2024-01-01T00:00:00Z",
          fields := [("value", .str "something broke")], tags := none }]] ∧
    (∀ b ∈ (handle jlDemo sinkOk [ruleA] ⟨0, some .legacy⟩ payloadA').writes,
      b ≠ []) := by
  have h := C10_falsy_message_early_return
  refine ⟨h.1 jlDemo sinkOk [ruleA] ⟨0, some .json⟩ "null" .null
      (by decide) (by decide),
    h.1 jlDemo sinkOk [ruleA] ⟨0, some .json⟩ "\x7b\x7d" (.dict [])
      (by decide) (by decide), ?_, ?_⟩
  · have hw := h.2.1 jlDemo sinkOk [ruleA] ⟨0, some .legacy⟩ payloadA' msgA'
      (by decide) (by decide)
    rw [hw]
    decide
  · intro b hb
    exact h.2.2 jlDemo sinkOk [ruleA] ⟨0, some .legacy⟩ payloadA' b hb

end LogFlux
